import Mathlib

/-!
Verification of the wework-booker repository, shallowly embedded from
`src/wework_booker/booker.py`, `src/wework_booker/scheduler.py` and
`src/wework_booker/config.py`.

Dates are modelled as absolute day numbers (`Nat`), with the epoch chosen
so that day `d` has Python weekday `d % 7` (Monday = 0).  Adding
`timedelta(days=k)` to `datetime.now()` advances the `.date()` part by
exactly `k` whole days, so the check `check_date.date() > today.date()`
of `booker.py` line 48 is `0 < k`.  A Python `KeyError` is modelled as
`none`, and the browser page that the booking methods drive is modelled
as a record of the button states those methods inspect.
-/

namespace WeworkBooker

/-- Embeds `day.lower()` (`booker.py` line 41): lowercase each character.
The day names involved are ASCII, where `Char.toLower` and the Python
method agree. -/
def pyLower (s : String) : String := String.mk (s.data.map Char.toLower)

/-- Embeds the `DAY_TO_WEEKDAY` dict of `booker.py` lines 15-23
(Monday = 0); an absent key yields `none` where Python raises
`KeyError`. -/
def DAY_TO_WEEKDAY : String → Option Nat
  | "monday" => some 0
  | "tuesday" => some 1
  | "wednesday" => some 2
  | "thursday" => some 3
  | "friday" => some 4
  | "saturday" => some 5
  | "sunday" => some 6
  | _ => none

/-- Embeds the comprehension
`[DAY_TO_WEEKDAY[day.lower()] for day in booking_days]`
(`booker.py` line 41): it fails on the first unknown day name, before
any date is produced. -/
def targetWeekdays : List String → Option (List Nat)
  | [] => some []
  | d :: rest =>
    match DAY_TO_WEEKDAY (pyLower d) with
    | none => none
    | some w => (targetWeekdays rest).map (fun tw => w :: tw)

/-- Embeds `get_next_booking_dates(booking_days, weeks_ahead)`
(`booker.py` lines 26-51): iterate `days_offset` over
`range(weeks_ahead * 7 + 7)`, keep the offsets whose weekday is in
`target_weekdays` and whose date is strictly after today, in loop
order, and return the corresponding dates.  `none` models the
`KeyError` raised on an unknown day name. -/
def getNextBookingDates (today : Nat) (bookingDays : List String)
    (weeksAhead : Nat) : Option (List Nat) :=
  (targetWeekdays bookingDays).map (fun tw =>
    ((List.range (weeksAhead * 7 + 7)).filter
        (fun k => decide ((today + k) % 7 ∈ tw) && decide (0 < k))).map
      (fun k => today + k))

/-- The number of distinct weekdays denoted by a target-weekday list. -/
def numDistinctWeekdays (tw : List Nat) : Nat :=
  (List.range 7).countP (fun w => decide (w ∈ tw))

/-- Decimal value of a digit run, as `int()` computes it on the
captured group. -/
def digitsToNat (acc : Nat) : List Char → Nat
  | [] => acc
  | c :: cs => digitsToNat (acc * 10 + (c.toNat - 48)) cs

/-- Embeds `re.search(r'Book for (\d+)', btn_text)` followed by
`int(credit_match.group(1))` (`booker.py` lines 444-447): scan for the
leftmost position where the literal `Book for ` is followed by at least
one digit, and return the value of the maximal digit run there. -/
def searchBookFor : List Char → Option Nat
  | [] => none
  | c :: rest =>
    if (c :: rest).take 9 = "Book for ".data then
      let ds := ((c :: rest).drop 9).takeWhile Char.isDigit
      if ds.isEmpty then searchBookFor rest
      else some (digitsToNat 0 ds)
    else searchBookFor rest

/-- The clicks `_confirm_booking` can perform on the page. -/
inductive UIAction where
  | clickBookFor
  | clickDone
  | clickCancel
  | clickConfirm
  | clickBookNow
  | clickComplete
  deriving DecidableEq

/-- The state of the confirmation dialog as inspected by
`_confirm_booking` (`booker.py` lines 421-554): the inner text of the
`Book for` button when one is visible, and visibility of the `Done`,
`Confirm`, `Book now`, `Complete` and `Cancel` buttons.  After the
cost-0 click the method returns `True` on every branch (lines 491-513),
so the success indicators need not be modelled. -/
structure PageModel where
  bookForButton : Option String
  doneVisible : Bool
  confirmVisible : Bool
  bookNowVisible : Bool
  completeVisible : Bool
  cancelVisible : Bool
  deriving DecidableEq

/-- Embeds the fallback tail of `_confirm_booking` (`booker.py` lines
524-554): try the `Confirm`, `Book now` and `Complete` selectors in
order and return `True` on the first visible one; otherwise close any
open dialog via `Cancel` and return `False`. -/
def fallbackConfirm (p : PageModel) : Bool × List UIAction :=
  if p.confirmVisible then (true, [UIAction.clickConfirm])
  else if p.bookNowVisible then (true, [UIAction.clickBookNow])
  else if p.completeVisible then (true, [UIAction.clickComplete])
  else if p.cancelVisible then (false, [UIAction.clickCancel])
  else (false, [])

/-- Embeds `_confirm_booking` (`booker.py` lines 421-554).  When a
`Book for` button is visible and its text parses, cost 0 confirms (the
button is clicked, then `Done` is clicked when visible, and the method
returns `True` on every subsequent branch) while a non-zero cost clicks
`Cancel` when visible and returns `False` (lines 514-522).  When no
`Book for` button is visible, or its text does not parse, control falls
through to the fallback selectors. -/
def confirmBooking (p : PageModel) : Bool × List UIAction :=
  match p.bookForButton with
  | some txt =>
    match searchBookFor txt.data with
    | some credits =>
      if credits = 0 then
        (true, UIAction.clickBookFor ::
          (if p.doneVisible then [UIAction.clickDone] else []))
      else
        (false, if p.cancelVisible then [UIAction.clickCancel] else [])
    | none => fallbackConfirm p
  | none => fallbackConfirm p

/-- The credit cost `_confirm_booking` would parse from the page:
`none` when no `Book for` button is visible or its text does not match
the pattern, so that no cost is ever read on those paths. -/
def parsedCredits (p : PageModel) : Option Nat :=
  p.bookForButton.bind (fun txt => searchBookFor txt.data)

/-- One attempt of `book_desk_for_date` (`booker.py` lines 112-154):
whether `_select_available_desk` located a desk control, and the
confirmation dialog the attempt then faces. -/
structure BookingAttempt where
  deskFound : Bool
  confirmPage : PageModel
  deriving DecidableEq

/-- Embeds `book_desk_for_date` (`booker.py` lines 134-154):
`False` when `_select_available_desk` fails, otherwise the result of
`_confirm_booking`; `_select_date` returns no value and cannot change
the outcome. -/
def bookDeskForDate (a : BookingAttempt) : Bool :=
  a.deskFound && (confirmBooking a.confirmPage).1

/-- The outcomes of the steps of `run_booking_job`
(`scheduler.py` lines 15-57): login, navigation to the booking page,
location selection, whether an exception escapes the body of the `try`
to the catch-all handler at lines 55-57 (for example a `KeyError` from
an unvalidated booking-day name inside `get_next_booking_dates`, a
page error in the inter-booking wait at `booker.py` line 572, or a
debug-mode screenshot failure before the per-date `try` at `booker.py`
lines 126-132), and the per-date result list that
`book_all_configured_dates` would otherwise return. -/
structure RunEnv where
  loginOk : Bool
  navigateOk : Bool
  locationOk : Bool
  raised : Bool
  bookingResults : List (String × Bool)
  deriving DecidableEq

/-- Embeds `run_booking_job` (`scheduler.py` lines 15-57): an empty
result map when an exception escapes to the catch-all handler at lines
55-57 (wherever in the body it fires, the handler returns `{}`, so the
check is placed first without loss), when login fails (line 31) or
when navigation fails (line 36); the result of `select_location` is
only logged (lines 42-43) and the per-date results are returned
unchanged. -/
def runBookingJob (env : RunEnv) : List (String × Bool) :=
  if env.raised then []
  else if !env.loginOk then []
  else if !env.navigateOk then []
  else env.bookingResults

/-- Embeds `book_all_configured_dates` (`booker.py` lines 556-574):
compute the target dates, then map each one to the pair of its
formatted date string and the outcome of `book_desk_for_date` for it.
The `strftime` rendering and the per-date browser outcome are library
and environment behaviour, passed in as the functions `fmt` and
`outcome`. -/
def bookAllConfiguredDates (today : Nat) (bookingDays : List String)
    (weeksAhead : Nat) (fmt : Nat → String) (outcome : Nat → Bool) :
    Option (List (String × Bool)) :=
  (getNextBookingDates today bookingDays weeksAhead).map
    (fun ds => ds.map (fun d => (fmt d, outcome d)))

/-! ## Counting helpers for the date window -/

/-- A 7-periodic predicate has the same count over any 7 consecutive
integers as over `0..6`. -/
theorem countP_range7_shift (q : Nat → Bool) (hq : ∀ k, q (k + 7) = q k) :
    ∀ n, (List.range 7).countP (fun i => q (n + i)) = (List.range 7).countP q := by
  intro n
  induction n with
  | zero => simp
  | succ n ih =>
    rw [← ih]
    have h7 : List.range 7 = [0, 1, 2, 3, 4, 5, 6] := by decide
    rw [h7]
    simp only [List.countP_cons, List.countP_nil]
    have e1 : n + 1 + 0 = n + 1 := by omega
    have e2 : n + 1 + 1 = n + 2 := by omega
    have e3 : n + 1 + 2 = n + 3 := by omega
    have e4 : n + 1 + 3 = n + 4 := by omega
    have e5 : n + 1 + 4 = n + 5 := by omega
    have e6 : n + 1 + 5 = n + 6 := by omega
    have e7 : n + 1 + 6 = n + 7 := by omega
    rw [e1, e2, e3, e4, e5, e6, e7, hq n]
    have f1 : n + 0 = n := by omega
    rw [f1]
    ring

/-- A 7-periodic predicate holds `m` times as often on `range (7 * m)`
as on one week. -/
theorem countP_range_seven_mul (q : Nat → Bool) (hq : ∀ k, q (k + 7) = q k) :
    ∀ m, (List.range (7 * m)).countP q = m * (List.range 7).countP q := by
  intro m
  induction m with
  | zero => simp
  | succ m ih =>
    have h : 7 * (m + 1) = 7 * m + 7 := by ring
    rw [h, List.range_add, List.countP_append, ih, List.countP_map]
    have h2 : (List.range 7).countP (q ∘ fun x => 7 * m + x)
        = (List.range 7).countP q := by
      simpa [Function.comp] using countP_range7_shift q hq (7 * m)
    rw [h2]
    ring

/-- Excluding offset 0 from the window removes exactly the count of the
predicate at 0. -/
theorem countP_range_drop_zero (p : Nat → Bool) (n : Nat) :
    (List.range (n + 1)).countP (fun k => p k && decide (0 < k))
      + (if p 0 then 1 else 0)
    = (List.range (n + 1)).countP p := by
  rw [List.range_succ_eq_map, List.countP_cons, List.countP_cons]
  simp only [List.countP_map]
  have h1 : ((fun k => p k && decide (0 < k)) ∘ Nat.succ) = (p ∘ Nat.succ) := by
    funext k
    simp [Function.comp]
  rw [h1]
  simp

/-- Over one week starting at any day, the weekdays hitting the target
set are exactly the distinct members of the set. -/
theorem countP_range7_residues (today : Nat) (tw : List Nat) :
    (List.range 7).countP (fun i => decide ((today + i) % 7 ∈ tw))
      = numDistinctWeekdays tw := by
  have hq : ∀ k, (fun k => decide (k % 7 ∈ tw)) (k + 7)
      = (fun k => decide (k % 7 ∈ tw)) k := by
    intro k
    simp [Nat.add_mod_right]
  have h := countP_range7_shift (fun k => decide (k % 7 ∈ tw)) hq today
  simp only at h
  rw [h, numDistinctWeekdays]
  have h7 : List.range 7 = [0, 1, 2, 3, 4, 5, 6] := by decide
  rw [h7]
  simp [List.countP_cons]

/-- Every date the window produces lies in the target weekday set and
strictly after today. -/
theorem mem_getNextBookingDates (today weeksAhead : Nat) (days : List String)
    (tw ds : List Nat)
    (h1 : targetWeekdays days = some tw)
    (h2 : getNextBookingDates today days weeksAhead = some ds) :
    ∀ d ∈ ds, d % 7 ∈ tw ∧ today < d := by
  rw [getNextBookingDates, h1, Option.map_some'] at h2
  have hds := (Option.some_inj.mp h2).symm
  subst hds
  intro d hd
  rw [List.mem_map] at hd
  obtain ⟨k, hk, rfl⟩ := hd
  rw [List.mem_filter] at hk
  obtain ⟨_, hcond⟩ := hk
  rw [Bool.and_eq_true, decide_eq_true_iff, decide_eq_true_iff] at hcond
  obtain ⟨hmem, hpos⟩ := hcond
  exact ⟨hmem, by omega⟩

/-- A list of day names containing an unknown one makes the weekday
lookup fail. -/
theorem targetWeekdays_eq_none (days : List String)
    (h : ∃ d ∈ days, DAY_TO_WEEKDAY (pyLower d) = none) :
    targetWeekdays days = none := by
  induction days with
  | nil => simp at h
  | cons d rest ih =>
    rw [targetWeekdays]
    cases hcase : DAY_TO_WEEKDAY (pyLower d) with
    | none => rfl
    | some w =>
      obtain ⟨x, hx, hnone⟩ := h
      rcases List.mem_cons.mp hx with hxd | hxr
      · subst hxd
        rw [hcase] at hnone
        exact absurd hnone (by simp)
      · rw [ih ⟨x, hxr, hnone⟩]
        rfl

/-! ## Claims -/

/-- Claim C1, counterexample: with the current date on a Wednesday
(day 2), `booking_days = ["wednesday"]` and `weeks_ahead = 0`, the
function returns no date at all, not `(0 + 1) * 1 = 1` dates, because
the occurrence at offset 0 is today and is excluded. -/
theorem getNextBookingDates_count_cex :
    getNextBookingDates 2 ["wednesday"] 0 = some [] ∧
    ([] : List Nat).length ≠ (0 + 1) * numDistinctWeekdays [2] := by decide

/-- Claim C1, amended: for every valid weekday list and every lookahead
count, the number of produced dates plus one when the current weekday
is itself in the target set equals `(weeks_ahead + 1)` times the number
of distinct target weekdays; so each target weekday contributes
`weeks_ahead + 1` dates except the current one, which contributes
`weeks_ahead`. -/
theorem getNextBookingDates_count (today weeksAhead : Nat)
    (days : List String) (tw ds : List Nat)
    (h1 : targetWeekdays days = some tw)
    (h2 : getNextBookingDates today days weeksAhead = some ds) :
    ds.length + (if today % 7 ∈ tw then 1 else 0)
      = (weeksAhead + 1) * numDistinctWeekdays tw := by
  rw [getNextBookingDates, h1, Option.map_some'] at h2
  have hds := (Option.some_inj.mp h2).symm
  subst hds
  rw [List.length_map, ← List.countP_eq_length_filter]
  have hn : weeksAhead * 7 + 7 = (weeksAhead * 7 + 6) + 1 := by omega
  rw [hn]
  have hdrop := countP_range_drop_zero
    (fun k => decide ((today + k) % 7 ∈ tw)) (weeksAhead * 7 + 6)
  simp only [Nat.add_zero] at hdrop
  have hif : (if today % 7 ∈ tw then (1 : Nat) else 0)
      = (if decide (today % 7 ∈ tw) = true then (1 : Nat) else 0) := by
    by_cases hmem : today % 7 ∈ tw <;> simp [hmem]
  rw [hif, hdrop]
  have hper : ∀ k, (fun k => decide ((today + k) % 7 ∈ tw)) (k + 7)
      = (fun k => decide ((today + k) % 7 ∈ tw)) k := by
    intro k
    simp only
    have h77 : (today + (k + 7)) % 7 = (today + k) % 7 := by omega
    rw [h77]
  have hmul := countP_range_seven_mul
    (fun k => decide ((today + k) % 7 ∈ tw)) hper (weeksAhead + 1)
  have h71 : 7 * (weeksAhead + 1) = (weeksAhead * 7 + 6) + 1 := by ring
  rw [h71, countP_range7_residues today tw] at hmul
  exact hmul

/-- Claim C1, witness: from a Monday (day 0) with `["tuesday"]` and
lookahead 0, one date (day 1) is produced and the count law holds. -/
theorem getNextBookingDates_count_witness :
    ([1] : List Nat).length + (if (0 : Nat) % 7 ∈ ([1] : List Nat) then 1 else 0)
      = (0 + 1) * numDistinctWeekdays [1] :=
  getNextBookingDates_count 0 0 ["tuesday"] [1] [1] (by decide) (by decide)

/-- Claim C2: when a visible confirmation button parses as
`Book for n ...`, cost 0 confirms the booking (the button is clicked,
`Done` is clicked when visible, and the method returns `True`), while a
non-zero cost returns `False` without clicking the booking button,
clicking `Cancel` when present, so `book_desk_for_date` records failure
for that date. -/
theorem confirmBooking_credit_rule (p : PageModel) (txt : String) (n : Nat)
    (hbtn : p.bookForButton = some txt)
    (hparse : searchBookFor txt.data = some n) :
    (n = 0 →
      (confirmBooking p).1 = true ∧
      UIAction.clickBookFor ∈ (confirmBooking p).2 ∧
      (p.doneVisible = true → UIAction.clickDone ∈ (confirmBooking p).2)) ∧
    (n ≠ 0 →
      (confirmBooking p).1 = false ∧
      UIAction.clickBookFor ∉ (confirmBooking p).2 ∧
      (p.cancelVisible = true → UIAction.clickCancel ∈ (confirmBooking p).2) ∧
      bookDeskForDate ⟨true, p⟩ = false) := by
  unfold confirmBooking bookDeskForDate
  rw [hbtn]
  simp only [hparse]
  constructor
  · intro hn
    subst hn
    simp only [if_pos rfl]
    refine ⟨rfl, List.mem_cons_self _ _, ?_⟩
    intro hd
    rw [hd]
    simp
  · intro hn
    rw [if_neg hn]
    refine ⟨rfl, ?_, ?_, ?_⟩
    · by_cases hc : p.cancelVisible = true <;> simp [hc]
    · intro hc
      rw [hc]
      simp
    · simp only [Bool.true_and]
      rw [confirmBooking, hbtn]
      simp only [hparse]
      rw [if_neg hn]

/-- Claim C2, witness: on a dialog showing `Book for 1 credit` with a
visible `Cancel` button, the non-zero branch of the rule applies. -/
theorem confirmBooking_credit_rule_witness :
    ((1 : Nat) = 0 →
      (confirmBooking ⟨some ("Book for 1 credit"), false, false, false, false, true⟩).1 = true ∧
      UIAction.clickBookFor ∈
        (confirmBooking ⟨some ("Book for 1 credit"), false, false, false, false, true⟩).2 ∧
      ((⟨some ("Book for 1 credit"), false, false, false, false, true⟩ : PageModel).doneVisible = true →
        UIAction.clickDone ∈
          (confirmBooking ⟨some ("Book for 1 credit"), false, false, false, false, true⟩).2)) ∧
    ((1 : Nat) ≠ 0 →
      (confirmBooking ⟨some ("Book for 1 credit"), false, false, false, false, true⟩).1 = false ∧
      UIAction.clickBookFor ∉
        (confirmBooking ⟨some ("Book for 1 credit"), false, false, false, false, true⟩).2 ∧
      ((⟨some ("Book for 1 credit"), false, false, false, false, true⟩ : PageModel).cancelVisible = true →
        UIAction.clickCancel ∈
          (confirmBooking ⟨some ("Book for 1 credit"), false, false, false, false, true⟩).2) ∧
      bookDeskForDate ⟨true, ⟨some ("Book for 1 credit"), false, false, false, false, true⟩⟩ = false) :=
  confirmBooking_credit_rule
    ⟨some ("Book for 1 credit"), false, false, false, false, true⟩
    ("Book for 1 credit") 1 rfl (by decide)

/-- Claim C3: every produced date falls on a weekday of the given set. -/
theorem getNextBookingDates_weekday_mem (today weeksAhead : Nat)
    (days : List String) (tw ds : List Nat)
    (h1 : targetWeekdays days = some tw)
    (h2 : getNextBookingDates today days weeksAhead = some ds) :
    ∀ d ∈ ds, d % 7 ∈ tw :=
  fun d hd => (mem_getNextBookingDates today weeksAhead days tw ds h1 h2 d hd).1

/-- Claim C3, witness: from day 0 with `["tuesday"]` and lookahead 0,
the produced date 1 falls on weekday 1. -/
theorem getNextBookingDates_weekday_mem_witness :
    (1 : Nat) % 7 ∈ ([1] : List Nat) :=
  getNextBookingDates_weekday_mem 0 0 ["tuesday"] [1] [1] (by decide) (by decide)
    1 (by decide)

/-- Claim C4: every produced date is strictly after the current date. -/
theorem getNextBookingDates_future (today weeksAhead : Nat)
    (days : List String) (tw ds : List Nat)
    (h1 : targetWeekdays days = some tw)
    (h2 : getNextBookingDates today days weeksAhead = some ds) :
    ∀ d ∈ ds, today < d :=
  fun d hd => (mem_getNextBookingDates today weeksAhead days tw ds h1 h2 d hd).2

/-- Claim C4, witness: from day 0 with `["tuesday"]` and lookahead 0,
the produced date 1 is strictly after day 0. -/
theorem getNextBookingDates_future_witness :
    (0 : Nat) < 1 :=
  getNextBookingDates_future 0 0 ["tuesday"] [1] [1] (by decide) (by decide)
    1 (by decide)

/-- Claim C5, counterexample: with a desk control located but no
`Book for` button visible and a generic `Confirm` button visible,
`book_desk_for_date` returns `True` although no credit cost was ever
parsed, so `True` is not reserved to the cost-0 booked outcome of the
claimed three-way classification. -/
theorem bookDeskForDate_cex :
    bookDeskForDate ⟨true, ⟨none, false, true, false, false, false⟩⟩ = true ∧
    (⟨true, ⟨none, false, true, false, false, false⟩⟩ : BookingAttempt).deskFound = true ∧
    parsedCredits ⟨none, false, true, false, false, false⟩ = none := by decide

/-- Claim C5, amended: `book_desk_for_date` reports a single boolean
per date, and it returns `True` exactly when a desk control was located
and either the parsed credit cost is 0 or no cost could be parsed but a
generic confirm-like button is visible; the skipped (cost non-zero),
not-found, and no-confirmation-control outcomes all collapse to the
same `False`. -/
theorem bookDeskForDate_characterization (a : BookingAttempt) :
    bookDeskForDate a = true ↔
      (a.deskFound = true ∧
        (parsedCredits a.confirmPage = some 0 ∨
          (parsedCredits a.confirmPage = none ∧
            (a.confirmPage.confirmVisible = true ∨
             a.confirmPage.bookNowVisible = true ∨
             a.confirmPage.completeVisible = true)))) := by
  obtain ⟨df, p⟩ := a
  unfold bookDeskForDate parsedCredits confirmBooking fallbackConfirm
  cases hbtn : p.bookForButton with
  | none =>
    simp only [Option.bind]
    by_cases hc : p.confirmVisible <;> by_cases hb : p.bookNowVisible <;>
      by_cases hcm : p.completeVisible <;> by_cases hx : p.cancelVisible <;>
      simp [hc, hb, hcm, hx]
  | some txt =>
    cases hparse : searchBookFor txt.data with
    | none =>
      simp only [Option.bind, hparse]
      by_cases hc : p.confirmVisible <;> by_cases hb : p.bookNowVisible <;>
        by_cases hcm : p.completeVisible <;> by_cases hx : p.cancelVisible <;>
        simp [hc, hb, hcm, hx]
    | some credits =>
      simp only [Option.bind, hparse]
      by_cases h0 : credits = 0
      · subst h0
        simp
      · rw [if_neg h0]
        simp [h0]

/-- Claim C5, witness: the characterization applied to a concrete
attempt whose dialog shows `Book for 0 credits`. -/
theorem bookDeskForDate_characterization_witness :
    bookDeskForDate
      ⟨true, ⟨some ("Book for 0 credits"), true, false, false, false, false⟩⟩ = true :=
  (bookDeskForDate_characterization
      ⟨true, ⟨some ("Book for 0 credits"), true, false, false, false, false⟩⟩).mpr
    ⟨rfl, Or.inl (by decide)⟩

/-- Claim C6: every key of the result map of
`book_all_configured_dates` is the formatting of one of the target
dates computed by `get_next_booking_dates` for the configured booking
days and lookahead; no other key appears. -/
theorem bookAllConfiguredDates_keys_subset (today weeksAhead : Nat)
    (days : List String) (fmt : Nat → String) (outcome : Nat → Bool)
    (ds : List Nat) (rs : List (String × Bool))
    (h1 : getNextBookingDates today days weeksAhead = some ds)
    (h2 : bookAllConfiguredDates today days weeksAhead fmt outcome = some rs) :
    ∀ kv ∈ rs, kv.1 ∈ ds.map fmt := by
  rw [bookAllConfiguredDates, h1, Option.map_some'] at h2
  have hrs := (Option.some_inj.mp h2).symm
  subst hrs
  intro kv hkv
  rw [List.mem_map] at hkv ⊢
  obtain ⟨d, hd, rfl⟩ := hkv
  exact ⟨d, hd, rfl⟩

/-- Claim C6, witness: for day 0, `["tuesday"]`, lookahead 0 and a
constant formatter, the single result key is the formatted target
date. -/
theorem bookAllConfiguredDates_keys_subset_witness :
    ((("x" : String), true) : String × Bool).1 ∈ ([1] : List Nat).map (fun _ => "x") :=
  bookAllConfiguredDates_keys_subset 0 0 ["tuesday"] (fun _ => "x")
    (fun _ => true) [1] [(("x" : String), true)] (by decide) (by decide)
    (("x"), true) (by decide)

/-- Claim C7, counterexample: a run whose login succeeds but whose
navigation to the booking page fails is aborted with zero per-date
results, and so is a run whose login and navigation both succeed but
from whose body an exception escapes to the catch-all handler (as a
`KeyError` from an unvalidated booking-day name does); so login
failure and configuration errors surfaced before the run are not the
only failures that abort a whole run. -/
theorem runBookingJob_cex :
    runBookingJob ⟨true, false, true, false, [(("2025-01-01" : String), true)]⟩ = [] ∧
    (⟨true, false, true, false, [(("2025-01-01" : String), true)]⟩ : RunEnv).loginOk = true ∧
    (⟨true, false, true, false, [(("2025-01-01" : String), true)]⟩ : RunEnv).bookingResults ≠ [] ∧
    runBookingJob ⟨true, true, true, true, [(("2025-01-01" : String), true)]⟩ = [] ∧
    (⟨true, true, true, true, [(("2025-01-01" : String), true)]⟩ : RunEnv).loginOk = true ∧
    (⟨true, true, true, true, [(("2025-01-01" : String), true)]⟩ : RunEnv).navigateOk = true := by
  refine ⟨rfl, rfl, ?_, rfl, rfl, rfl⟩
  simp

/-- Claim C7, amended: a run yields zero per-date results exactly when
login fails, navigation to the booking page fails, an exception
escapes the run body to its catch-all handler (which is how an invalid
booking-day name, a page error between bookings, or a debug-mode
output failure aborts a run after login and navigation succeeded), or
the computed per-date result list is itself empty; when no exception
escapes and login and navigation succeed, the per-date results are
returned unchanged whatever the location-selection outcome, failures
caught inside a single date's booking attempt being recorded there as
that date's `False` while the run continues. -/
theorem runBookingJob_abort (env : RunEnv) :
    (env.raised = false → env.loginOk = true → env.navigateOk = true →
      runBookingJob env = env.bookingResults) ∧
    (runBookingJob env = [] →
      env.raised = true ∨ env.loginOk = false ∨ env.navigateOk = false ∨
      env.bookingResults = []) := by
  constructor
  · intro hr hl hn
    simp [runBookingJob, hr, hl, hn]
  · intro hempty
    by_cases hr : env.raised = true
    · left
      exact hr
    · by_cases hl : env.loginOk = true
      · by_cases hn : env.navigateOk = true
        · right; right; right
          rw [runBookingJob] at hempty
          rw [Bool.not_eq_true] at hr
          simpa [hr, hl, hn] using hempty
        · right; right; left
          simpa using hn
      · right; left
        simpa using hl

/-- Claim C7, witness: a run with no escaped exception, successful
login and navigation but failed location selection still returns its
per-date results. -/
theorem runBookingJob_abort_witness :
    runBookingJob ⟨true, true, false, false, [(("2025-01-01" : String), true)]⟩
      = (⟨true, true, false, false, [(("2025-01-01" : String), true)]⟩ : RunEnv).bookingResults :=
  (runBookingJob_abort ⟨true, true, false, false, [(("2025-01-01" : String), true)]⟩).1
    rfl rfl rfl

/-- Claim C8: the produced date list is strictly increasing and free of
duplicates, for any weekday list, repeated day names included. -/
theorem getNextBookingDates_sorted_nodup (today weeksAhead : Nat)
    (days : List String) (tw ds : List Nat)
    (h1 : targetWeekdays days = some tw)
    (h2 : getNextBookingDates today days weeksAhead = some ds) :
    List.Pairwise (· < ·) ds ∧ ds.Nodup := by
  rw [getNextBookingDates, h1, Option.map_some'] at h2
  have hds := (Option.some_inj.mp h2).symm
  subst hds
  have hpw : List.Pairwise (· < ·)
      ((List.range (weeksAhead * 7 + 7)).filter
        (fun k => decide ((today + k) % 7 ∈ tw) && decide (0 < k))) :=
    List.Pairwise.sublist (List.filter_sublist _) (List.pairwise_lt_range _)
  have hmap : List.Pairwise (· < ·)
      (((List.range (weeksAhead * 7 + 7)).filter
        (fun k => decide ((today + k) % 7 ∈ tw) && decide (0 < k))).map
        (fun k => today + k)) := by
    refine List.Pairwise.map _ ?_ hpw
    intro a b hab
    omega
  exact ⟨hmap, hmap.imp (fun h => Nat.ne_of_lt h)⟩

/-- Claim C8, witness: the dates for day 0, repeated `["tuesday",
"tuesday"]` and lookahead 1 are `[1, 8]`, strictly increasing and
duplicate-free. -/
theorem getNextBookingDates_sorted_nodup_witness :
    List.Pairwise (· < ·) ([1, 8] : List Nat) ∧ ([1, 8] : List Nat).Nodup :=
  getNextBookingDates_sorted_nodup 0 1 ["tuesday", "tuesday"] [1, 1] [1, 8]
    (by decide) (by decide)

/-- Claim C9: a booking-day list containing a name that, lowercased, is
not one of the seven weekday names makes `get_next_booking_dates` fail
with a lookup error before producing any dates; it never silently
ignores the unknown name. -/
theorem getNextBookingDates_unknown_day (today weeksAhead : Nat)
    (days : List String)
    (h : ∃ d ∈ days, DAY_TO_WEEKDAY (pyLower d) = none) :
    getNextBookingDates today days weeksAhead = none := by
  rw [getNextBookingDates, targetWeekdays_eq_none days h]
  rfl

/-- Claim C9, witness: `["monday", "funday"]` makes the computation
fail even though its first name is valid. -/
theorem getNextBookingDates_unknown_day_witness :
    getNextBookingDates 0 ["monday", "funday"] 0 = none :=
  getNextBookingDates_unknown_day 0 0 ["monday", "funday"] (by decide)

/-- Claim C10: when no `Book for` button is visible but one of the
generic `Confirm`, `Book now` or `Complete` buttons is,
`_confirm_booking` clicks a generic confirm button and returns `True`
while no credit cost is ever parsed, so a booking can be confirmed on a
path where the zero-cost rule is never evaluated. -/
theorem confirmBooking_fallback_no_cost (p : PageModel)
    (hbtn : p.bookForButton = none)
    (hvis : p.confirmVisible = true ∨ p.bookNowVisible = true ∨
      p.completeVisible = true) :
    (confirmBooking p).1 = true ∧ parsedCredits p = none ∧
    (∃ a ∈ (confirmBooking p).2,
      a = UIAction.clickConfirm ∨ a = UIAction.clickBookNow ∨
      a = UIAction.clickComplete) := by
  unfold confirmBooking parsedCredits fallbackConfirm
  rw [hbtn]
  rcases hvis with h | h | h
  · simp [h]
  · by_cases hc : p.confirmVisible <;> simp [hc, h]
  · by_cases hc : p.confirmVisible <;> by_cases hb : p.bookNowVisible <;>
      simp [hc, hb, h]

/-- Claim C10, witness: a dialog with only a `Confirm` button is
confirmed with no cost parsed. -/
theorem confirmBooking_fallback_no_cost_witness :
    (confirmBooking ⟨none, false, true, false, false, false⟩).1 = true ∧
    parsedCredits ⟨none, false, true, false, false, false⟩ = none ∧
    (∃ a ∈ (confirmBooking ⟨none, false, true, false, false, false⟩).2,
      a = UIAction.clickConfirm ∨ a = UIAction.clickBookNow ∨
      a = UIAction.clickComplete) :=
  confirmBooking_fallback_no_cost ⟨none, false, true, false, false, false⟩
    rfl (Or.inl rfl)

end WeworkBooker
